import Mathlib

/-!
Verification of the QA issue-merge utilities (merge_utils.py, llm_utils.py).

The table (pandas DataFrame) is embedded as a list of rows; a cell that may
be NA (pandas missing value) is an `Option`.  The `Merged IDs` cell, whose
only writer stores `json.dumps` of a list of issue ids, is represented by
the decoded list (`Option (List String)`); JSON encoding of string lists is
injective, so nothing is lost.  The append-only audit file is an
`Option (List AuditEntry)` (`none` = file absent); `datetime.now()` is an
explicit `now` argument.
-/

namespace RadQA

/-- One row of the issue table.  Only the columns the merge code reads or
writes are carried: identity, standard, the content fields that
`execute_merge` touches or the spec's scenarios mention, and the three
merge-state columns. -/
structure Row where
  issueId : String
  linkedStandard : String
  inputPrompt : Option String
  failureRationale : Option String
  finalScore : Option String
  status : Option String
  mergedWithIssueId : Option String
  mergedIds : Option (List String)
deriving DecidableEq, Repr

/-- Keep the first occurrence of each element, dropping later duplicates:
Python's `list(dict.fromkeys(values))` and the order kept by
`pandas.unique`. -/
def dedupFirst (seen : List String) : List String → List String
  | [] => []
  | v :: vs => if seen.contains v then dedupFirst seen vs
               else v :: dedupFirst (seen ++ [v]) vs

/-- `", ".join(xs)`. -/
def joinComma (xs : List String) : String := String.intercalate ", " xs

/-- Python `str.strip()`: drop leading and trailing whitespace.  (Defined
over the character list; `String.trim` computes the same value but through
byte positions that do not evaluate inside proofs.) -/
def pyStrip (s : String) : String :=
  String.mk
    (((s.data.dropWhile Char.isWhitespace).reverse.dropWhile Char.isWhitespace).reverse)

/-- MergeValidator.validate_merge_group (merge_utils.py lines 19-45):
four checks in source order, each returning on first failure. -/
def validate_merge_group (df : List Row) (issues : List String) :
    Bool × String :=
  if issues.length < 2 then
    (false, "Need at least 2 issues to merge")
  else
    let existing_issues := df.map (·.issueId)
    let missing_issues := issues.filter (fun i => ¬ existing_issues.contains i)
    if missing_issues ≠ [] then
      (false, "Issues not found: " ++ joinComma missing_issues)
    else
      let merged_issues := (df.filter (fun r => r.status = some "Merged")).map (·.issueId)
      let already_merged := issues.filter (fun i => merged_issues.contains i)
      if already_merged ≠ [] then
        (false, "Issues already merged: " ++ joinComma already_merged)
      else
        let standards :=
          dedupFirst [] ((df.filter (fun r => issues.contains r.issueId)).map (·.linkedStandard))
        if standards.length > 1 then
          (false, "Issues have different standards: " ++ joinComma standards)
        else
          (true, "")

/-- A Python value as it leaves `combine_field_values`: a string, a float
(the score branch's `max(float(v) for v in values)`), or the ValueError
`float()` raises on an unparsable string. -/
inductive PyVal where
  | s (v : String)
  | f (v : Rat)
  | err
deriving DecidableEq, Repr

/-- Python `float(v)` on the plain decimal literals a score cell can hold;
`none` models the ValueError raised on anything unparsable.  (Exponent and
infinity syntax is not modelled; no claim evaluates those.) -/
def pyFloat (s : String) : Option Rat :=
  let t := pyStrip s
  let signed : Int × String :=
    if t.startsWith "-" then (-1, t.drop 1)
    else if t.startsWith "+" then (1, t.drop 1)
    else (1, t)
  match (signed.2).splitOn "." with
  | [w] => (w.toNat?).map (fun n => ((signed.1 * (n : Int) : Int) : Rat))
  | [w, fr] =>
      if w = "" && fr = "" then none
      else if (w.toList.all Char.isDigit) && (fr.toList.all Char.isDigit) then
        let wn : Nat := (w.toNat?).getD 0
        let fn : Nat := (fr.toNat?).getD 0
        some ((signed.1 : Rat) * ((wn : Rat) + (fn : Rat) / ((10 : Rat) ^ fr.length)))
      else none
  | _ => none

/-- MergeExecutor.combine_field_values (merge_utils.py lines 106-129).
The input cells are NA (`none`) or strings, as in the modelled columns. -/
def combine_field_values (values : List (Option String)) (field : String) : PyVal :=
  let values := (values.filterMap id).filter (fun v => pyStrip v ≠ "")
  let values := dedupFirst [] values
  if values = [] then
    .s ""
  else if field = "Final Weighted Score (1-3)" then
    match values.mapM pyFloat with
    | some (r :: rs) => .f (rs.foldl max r)
    | _ => .err
  else if field = "Failure Rationale" then
    .s (String.intercalate "\n" (values.map (fun v => "â€¢ " ++ v)))
  else if field = "Investigation Notes" then
    .s (String.intercalate "\n\n" (values.map (fun v => "[Previous Note] " ++ v)))
  else
    .s (values.headD "")

/-- A merge suggestion dict as consumed by execute_merge. -/
structure MergeSuggestion where
  issues : List String
  rationale : String
  confidence : Rat
  selected_issues : Option (List String)
deriving DecidableEq, Repr

/-- The merge-action dict built at merge_utils.py lines 180-185. -/
structure MergeAction where
  primary_issue : String
  secondary_issues : List String
  confidence : Rat
  rationale : String
deriving DecidableEq, Repr

/-- One line of the audit file: timestamp and constant action tag plus the
spread of the merge-action dict (merge_utils.py lines 55-59). -/
structure AuditEntry where
  timestamp : String
  action : String
  primary_issue : String
  secondary_issues : List String
  confidence : Rat
  rationale : String
deriving DecidableEq, Repr

/-- MergeAuditor.log_merge: appends one entry, creating the file (open mode
"a") when absent.  `now` stands for `datetime.now().isoformat()`. -/
def log_merge (now : String) (merge_action : MergeAction)
    (file : Option (List AuditEntry)) : Option (List AuditEntry) :=
  let audit_entry : AuditEntry :=
    ⟨now, "merge", merge_action.primary_issue, merge_action.secondary_issues,
      merge_action.confidence, merge_action.rationale⟩
  some ((file.getD []) ++ [audit_entry])

/-- MergeAuditor.get_merge_history: empty when the caller opts out of the
cache or when the file is missing (FileNotFoundError). -/
def get_merge_history (file : Option (List AuditEntry)) (use_cache : Bool) :
    List AuditEntry :=
  if !use_cache then []
  else match file with
    | some entries => entries
    | none => []

/-- MergeAuditor.clear_cache: removes the file, reporting whether it
existed. -/
def clear_cache (file : Option (List AuditEntry)) :
    Option (List AuditEntry) × Bool :=
  match file with
  | some _ => (none, true)
  | none => (none, false)

/-- `df.loc[mask, cols] = v` as a row transformation: apply `f` to every
row satisfying `p`. -/
def updateWhere (df : List Row) (p : Row → Bool) (f : Row → Row) : List Row :=
  df.map (fun r => if p r then f r else r)

/-- Store a combined value back into a string-typed cell.  The two fields
`execute_merge` combines ("Input Prompt", "Failure Rationale") always
produce `PyVal.s`; the numeric and error constructors never reach a cell. -/
def cellOfPy : PyVal → Option String
  | .s v => some v
  | _ => none

/-- MergeExecutor.execute_merge (merge_utils.py lines 131-190), with the
auditor's file threaded explicitly.  Each `df.loc` statement becomes one
`updateWhere` in source order; `df.copy()` is value semantics. -/
def execute_merge (df : List Row) (merge_suggestion : MergeSuggestion)
    (file : Option (List AuditEntry)) (now : String) :
    (List Row × Option MergeAction) × Option (List AuditEntry) :=
  let issues := merge_suggestion.selected_issues.getD merge_suggestion.issues
  let v := validate_merge_group df issues
  if !v.1 then ((df, none), file)
  else
    let primary_issue := issues.headD ""
    let secondary_issues := issues.tail
    let df := updateWhere df (fun r => r.issueId = primary_issue)
      (fun r => { r with status := some "Primary" })
    let members := df.filter (fun r => issues.contains r.issueId)
    let combinedPrompt := combine_field_values (members.map (·.inputPrompt)) "Input Prompt"
    let combinedRationale := combine_field_values (members.map (·.failureRationale)) "Failure Rationale"
    let df := updateWhere df (fun r => r.issueId = primary_issue)
      (fun r => { r with inputPrompt := cellOfPy combinedPrompt })
    let df := updateWhere df (fun r => r.issueId = primary_issue)
      (fun r => { r with failureRationale := cellOfPy combinedRationale })
    let df := updateWhere df (fun r => r.issueId = primary_issue)
      (fun r => { r with mergedIds := some secondary_issues })
    let df := secondary_issues.foldl
      (fun d issue_id => updateWhere d (fun r => r.issueId = issue_id)
        (fun r => { r with status := some "Merged", mergedWithIssueId := some primary_issue }))
      df
    let merge_action : MergeAction :=
      ⟨primary_issue, secondary_issues, merge_suggestion.confidence, merge_suggestion.rationale⟩
    ((df, some merge_action), log_merge now merge_action file)

/-- One oracle candidate group: the suggestion dict read by the acceptance
loop in analyze_issues_for_merge. -/
structure Candidate where
  issues : List String
  rationale : String
  confidence : Rat
deriving DecidableEq, Repr

/-- One iteration of the acceptance loop (llm_utils.py lines 160-167);
state = (valid_suggestions, processed_issues). -/
def acceptStep (st : List Candidate × List String) (suggestion : Candidate) :
    List Candidate × List String :=
  if !suggestion.issues.any (fun issue => st.2.contains issue) then
    if suggestion.confidence ≥ 0.8 then
      (st.1 ++ [suggestion], st.2 ++ suggestion.issues)
    else st
  else st

/-- The acceptance filter of analyze_issues_for_merge (llm_utils.py lines
158-170) over the candidate groups in oracle-return order, starting from an
empty processed set. -/
def filterValidSuggestions (suggestions : List Candidate) : List Candidate :=
  (suggestions.foldl acceptStep ([], [])).1

/-- A merge-state cell holding no id: pandas NA or the empty string (an
`Open` status is normalized to NA on load, app.py line 179). -/
def cellBlank : Option String → Bool
  | none => true
  | some s => s = ""

/-- A `Merged IDs` cell naming at least one absorbed issue. -/
def idsNonempty : Option (List String) → Bool
  | some (_ :: _) => true
  | _ => false

/-- The three-state invariant of spec §3 for one record: Merged iff the
back-link is set and non-empty, Primary iff the absorbed list is non-empty,
Open (blank status) iff both are empty. -/
def RecordInv (r : Row) : Prop :=
  ((r.status = some "Merged") ↔ cellBlank r.mergedWithIssueId = false) ∧
  ((r.status = some "Primary") ↔ idsNonempty r.mergedIds = true) ∧
  (cellBlank r.status = true ↔
    (cellBlank r.mergedWithIssueId = true ∧ idsNonempty r.mergedIds = false))

instance (r : Row) : Decidable (RecordInv r) := by
  unfold RecordInv; infer_instance

/-- The invariant for every record of the table. -/
def storeInv (df : List Row) : Prop := ∀ r ∈ df, RecordInv r

instance (df : List Row) : Decidable (storeInv df) :=
  List.decidableBAll _ df

/-- An all-empty row used as the out-of-range default of `List.getD`. -/
def defaultRow : Row := ⟨"", "", none, none, none, none, none, none⟩

/-- The combined "Input Prompt" cell a successful merge writes onto the
primary (gathered, as in the source, after the primary's status update). -/
def combinedPromptOf (df : List Row) (issues : List String) : Option String :=
  cellOfPy (combine_field_values
    (((updateWhere df (fun r => r.issueId = issues.headD "")
        (fun r => { r with status := some "Primary" })).filter
      (fun r => issues.contains r.issueId)).map (·.inputPrompt)) "Input Prompt")

/-- The combined "Failure Rationale" cell a successful merge writes onto
the primary. -/
def combinedRationaleOf (df : List Row) (issues : List String) : Option String :=
  cellOfPy (combine_field_values
    (((updateWhere df (fun r => r.issueId = issues.headD "")
        (fun r => { r with status := some "Primary" })).filter
      (fun r => issues.contains r.issueId)).map (·.failureRationale)) "Failure Rationale")

/-- The row-level effect of one successful merge with group `issues` and
combined cell values `cp`, `cr`: the chain of `df.loc` writes applied to a
single row. -/
def mergeRowTransform (issues : List String) (cp cr : Option String) (r : Row) : Row :=
  let primary := issues.headD ""
  let sec := issues.tail
  let r1 := if r.issueId = primary then { r with status := some "Primary" } else r
  let r2 := if r1.issueId = primary then { r1 with inputPrompt := cp } else r1
  let r3 := if r2.issueId = primary then { r2 with failureRationale := cr } else r2
  let r4 := if r3.issueId = primary then { r3 with mergedIds := some sec } else r3
  if sec.contains r4.issueId then
    { r4 with status := some "Merged", mergedWithIssueId := some primary }
  else r4

/-- The spec's acceptance rule written as the spec words it: walking the
oracle's groups in order, accept a candidate exactly when its confidence
is at least 0.8 and none of its member ids appears in an earlier accepted
candidate. -/
def specAccept (earlier : List Candidate) : List Candidate → List Candidate
  | [] => []
  | c :: rest =>
    if c.confidence ≥ 0.8 ∧ ∀ i ∈ c.issues, ∀ e ∈ earlier, i ∉ e.issues then
      c :: specAccept (earlier ++ [c]) rest
    else specAccept earlier rest


/-! ### Helper lemmas -/

lemma mem_dedupFirst {a : String} :
    ∀ {seen l : List String}, a ∈ dedupFirst seen l ↔ a ∈ l ∧ a ∉ seen := by
  intro seen l
  induction l generalizing seen with
  | nil => simp [dedupFirst]
  | cons v vs ih =>
    by_cases hv : seen.contains v
    · rw [dedupFirst, if_pos hv, ih]
      have hvm : v ∈ seen := by simpa using hv
      constructor
      · rintro ⟨h1, h2⟩
        exact ⟨List.mem_cons_of_mem _ h1, h2⟩
      · rintro ⟨h1, h2⟩
        rcases List.mem_cons.mp h1 with h | h
        · exact absurd (h ▸ hvm) h2
        · exact ⟨h, h2⟩
    · rw [dedupFirst, if_neg hv]
      have hvm : v ∉ seen := by simpa using hv
      constructor
      · intro h
        rcases List.mem_cons.mp h with h | h
        · exact ⟨h ▸ List.mem_cons_self _ _, h ▸ hvm⟩
        · rcases ih.mp h with ⟨h1, h2⟩
          simp at h2
          exact ⟨List.mem_cons_of_mem _ h1, h2.1⟩
      · rintro ⟨h1, h2⟩
        rcases List.mem_cons.mp h1 with h | h
        · exact h ▸ List.mem_cons_self _ _
        · by_cases hav : a = v
          · exact hav ▸ List.mem_cons_self _ _
          · exact List.mem_cons_of_mem _ (ih.mpr ⟨h, by simp [hav, h2]⟩)

lemma dedupFirst_eq_nil {seen l : List String} (h : ∀ a ∈ l, a ∈ seen) :
    dedupFirst seen l = [] := by
  induction l generalizing seen with
  | nil => rfl
  | cons v vs ih =>
    rw [dedupFirst, if_pos (by simpa using h v (List.mem_cons_self _ _))]
    exact ih fun a ha => h a (List.mem_cons_of_mem _ ha)

/-- The distinct-standards list is a single value or empty exactly when all
group members share one standard. -/
lemma dedupFirst_length_le_one {l : List String} :
    (dedupFirst [] l).length ≤ 1 ↔ ∀ a ∈ l, ∀ b ∈ l, a = b := by
  constructor
  · intro h a ha b hb
    have hma : a ∈ dedupFirst [] l := mem_dedupFirst.mpr ⟨ha, by simp⟩
    have hmb : b ∈ dedupFirst [] l := mem_dedupFirst.mpr ⟨hb, by simp⟩
    match hd : dedupFirst [] l with
    | [] => rw [hd] at hma; simp at hma
    | [x] =>
      rw [hd] at hma hmb
      simp at hma hmb
      rw [hma, hmb]
    | x :: y :: rest => rw [hd] at h; simp at h
  · intro h
    match l with
    | [] => simp [dedupFirst]
    | v :: vs =>
      rw [dedupFirst, if_neg (by simp)]
      have : dedupFirst [v] vs = [] :=
        dedupFirst_eq_nil fun a ha => by
          simp [h a (List.mem_cons_of_mem _ ha) v (List.mem_cons_self _ _)]
      simp [this]

/-- Acceptance characterization of the four validator checks: a group
passes exactly when it has at least two ids, each id names a row, no named
row is already Merged, and all named rows share one standard. -/
lemma validate_true_iff (df : List Row) (issues : List String) :
    (validate_merge_group df issues).1 = true ↔
      (2 ≤ issues.length
        ∧ (∀ i ∈ issues, ∃ r ∈ df, r.issueId = i)
        ∧ (∀ r ∈ df, r.issueId ∈ issues → r.status ≠ some "Merged")
        ∧ (∀ r1 ∈ df, ∀ r2 ∈ df, r1.issueId ∈ issues → r2.issueId ∈ issues →
            r1.linkedStandard = r2.linkedStandard)) := by
  unfold validate_merge_group
  by_cases h1 : issues.length < 2
  · simp only [if_pos h1]
    simp
    omega
  · simp only [if_neg h1]
    by_cases h2 : issues.filter (fun i => ¬ (df.map (·.issueId)).contains i) ≠ []
    · simp only [if_pos h2]
      rw [ne_eq, List.filter_eq_nil_iff] at h2
      push_neg at h2
      obtain ⟨i, hi, hni⟩ := h2
      have hni' : i ∉ df.map (·.issueId) := by
        simpa [List.elem_iff] using hni
      constructor
      · intro h; simp at h
      · rintro ⟨-, hex, -, -⟩
        obtain ⟨r, hr, hri⟩ := hex i hi
        exact absurd (List.mem_map.mpr ⟨r, hr, hri⟩) hni'
    · simp only [if_neg h2]
      rw [ne_eq, Decidable.not_not, List.filter_eq_nil_iff] at h2
      have hexist : ∀ i ∈ issues, ∃ r ∈ df, r.issueId = i := by
        intro i hi
        have hmem : i ∈ df.map (·.issueId) := by
          have := h2 i hi
          simpa [List.elem_iff] using this
        obtain ⟨r, hr, hri⟩ := List.mem_map.mp hmem
        exact ⟨r, hr, hri⟩
      by_cases h3 : issues.filter
          (fun i => ((df.filter (fun r => r.status = some "Merged")).map (·.issueId)).contains i) ≠ []
      · simp only [if_pos h3]
        rw [ne_eq, List.filter_eq_nil_iff] at h3
        push_neg at h3
        obtain ⟨i, hi, hmi⟩ := h3
        have hmi' : i ∈ (df.filter (fun r => r.status = some "Merged")).map (·.issueId) := by
          simpa [List.elem_iff] using hmi
        obtain ⟨r, hrf, hri⟩ := List.mem_map.mp hmi'
        rw [List.mem_filter] at hrf
        constructor
        · intro h; simp at h
        · rintro ⟨-, -, hnm, -⟩
          exact absurd (by simpa using hrf.2)
            (hnm r hrf.1 (by rw [hri]; exact hi))
      · simp only [if_neg h3]
        rw [ne_eq, Decidable.not_not, List.filter_eq_nil_iff] at h3
        have hnomerged : ∀ r ∈ df, r.issueId ∈ issues → r.status ≠ some "Merged" := by
          intro r hr hri hst
          exact (h3 r.issueId hri) (List.elem_iff.mpr (List.mem_map.mpr
            ⟨r, List.mem_filter.mpr ⟨hr, by simpa using hst⟩, rfl⟩))
        by_cases h4 : 1 <
            (dedupFirst []
              ((df.filter (fun r => issues.contains r.issueId)).map (·.linkedStandard))).length
        · simp only [if_pos h4]
          constructor
          · intro h; simp at h
          · rintro ⟨-, -, -, hstd⟩
            have hle : (dedupFirst []
                ((df.filter (fun r => issues.contains r.issueId)).map (·.linkedStandard))).length ≤ 1 := by
              rw [dedupFirst_length_le_one]
              intro a ha b hb
              simp only [List.mem_map, List.mem_filter] at ha hb
              obtain ⟨r1, ⟨hr1, hi1⟩, ha⟩ := ha
              obtain ⟨r2, ⟨hr2, hi2⟩, hb⟩ := hb
              rw [← ha, ← hb]
              exact hstd r1 hr1 r2 hr2 (by simpa [List.elem_iff] using hi1)
                (by simpa [List.elem_iff] using hi2)
            omega
        · simp only [if_neg h4]
          have hstd : ∀ r1 ∈ df, ∀ r2 ∈ df, r1.issueId ∈ issues → r2.issueId ∈ issues →
              r1.linkedStandard = r2.linkedStandard := by
            have hle : (dedupFirst []
                ((df.filter (fun r => issues.contains r.issueId)).map (·.linkedStandard))).length ≤ 1 := by
              omega
            rw [dedupFirst_length_le_one] at hle
            intro r1 hr1 r2 hr2 hi1 hi2
            exact hle _ (List.mem_map.mpr ⟨r1, List.mem_filter.mpr
                ⟨hr1, by simpa [List.elem_iff] using hi1⟩, rfl⟩)
              _ (List.mem_map.mpr ⟨r2, List.mem_filter.mpr
                ⟨hr2, by simpa [List.elem_iff] using hi2⟩, rfl⟩)
          simp only [true_iff]
          exact ⟨by omega, hexist, hnomerged, hstd⟩

/-- The secondary-issue loop of execute_merge written as one pass: marking
each listed id in turn equals marking every row whose id is listed. -/
lemma foldl_updateWhere_merged (sec : List String) (primary : String) :
    ∀ l : List Row,
      sec.foldl (fun d issue_id => updateWhere d (fun r => r.issueId = issue_id)
        (fun r => { r with status := some "Merged", mergedWithIssueId := some primary })) l
      = l.map (fun r => if sec.contains r.issueId then
          { r with status := some "Merged", mergedWithIssueId := some primary } else r) := by
  induction sec with
  | nil =>
    intro l
    simp
  | cons s rest ih =>
    intro l
    rw [List.foldl_cons, ih]
    simp only [updateWhere, List.map_map]
    apply List.map_congr_left
    intro r _
    obtain ⟨rid, rls, rip, rfr, rfs, rst, rmw, rmi⟩ := r
    by_cases h : rid = s
    · by_cases h2 : rest.contains rid
      · simp [h, h2, List.contains_cons]
      · simp [h, h2, List.contains_cons]
    · by_cases h2 : rest.contains rid
      · simp [h, h2, List.contains_cons]
      · simp [h, h2, List.contains_cons]

/-- Shape of a successful execute_merge call: the store is transformed
row-by-row, the merge action is returned, and one audit entry is logged. -/
lemma execute_merge_success (df : List Row) (ms : MergeSuggestion)
    (file : Option (List AuditEntry)) (now : String)
    (hv : (validate_merge_group df (ms.selected_issues.getD ms.issues)).1 = true) :
    execute_merge df ms file now =
      ((df.map (mergeRowTransform (ms.selected_issues.getD ms.issues)
          (combinedPromptOf df (ms.selected_issues.getD ms.issues))
          (combinedRationaleOf df (ms.selected_issues.getD ms.issues))),
        some ⟨(ms.selected_issues.getD ms.issues).headD "",
              (ms.selected_issues.getD ms.issues).tail,
              ms.confidence, ms.rationale⟩),
       log_merge now
         ⟨(ms.selected_issues.getD ms.issues).headD "",
          (ms.selected_issues.getD ms.issues).tail,
          ms.confidence, ms.rationale⟩ file) := by
  simp only [execute_merge, hv, Bool.not_true, Bool.false_eq_true, if_false]
  rw [foldl_updateWhere_merged]
  simp only [updateWhere, List.map_map]
  refine congrArg₂ Prod.mk (congrArg₂ Prod.mk ?_ rfl) rfl
  apply List.map_congr_left
  intro r _
  simp only [mergeRowTransform, Function.comp_apply, combinedPromptOf,
    combinedRationaleOf, updateWhere]
  by_cases h : r.issueId = (ms.selected_issues.getD ms.issues).headD ""
  · simp [h]
  · simp [h]

lemma getD_map_lt (f : Row → Row) (l : List Row) :
    ∀ i, i < l.length → (l.map f).getD i defaultRow = f (l.getD i defaultRow) := by
  induction l with
  | nil => intro i h; simp at h
  | cons a as ih =>
    intro i h
    cases i with
    | zero => simp [List.getD]
    | succ n => simpa [List.getD] using ih n (by simpa using h)

lemma foldl_acceptStep (cs : List Candidate) :
    ∀ acc : List Candidate,
      (cs.foldl acceptStep (acc, acc.flatMap (·.issues))).1 = acc ++ specAccept acc cs := by
  induction cs with
  | nil => intro acc; simp [specAccept]
  | cons c rest ih =>
    intro acc
    rw [List.foldl_cons, specAccept]
    have hanyiff : (c.issues.any fun issue => (acc.flatMap (·.issues)).contains issue) = false ↔
        ∀ i ∈ c.issues, ∀ e ∈ acc, i ∉ e.issues := by
      simp [List.any_eq_false, List.mem_flatMap]
    by_cases hov : ∀ i ∈ c.issues, ∀ e ∈ acc, i ∉ e.issues
    · have hany := hanyiff.mpr hov
      by_cases hconf : c.confidence ≥ 0.8
      · rw [if_pos ⟨hconf, hov⟩]
        have hstep : acceptStep (acc, acc.flatMap (·.issues)) c =
            (acc ++ [c], (acc ++ [c]).flatMap (·.issues)) := by
          rw [acceptStep]
          simp only [hany, Bool.not_false, if_true, if_pos hconf]
          simp
        rw [hstep, ih (acc ++ [c])]
        simp
      · rw [if_neg (by tauto)]
        have hstep : acceptStep (acc, acc.flatMap (·.issues)) c = (acc, acc.flatMap (·.issues)) := by
          rw [acceptStep]
          simp only [hany, Bool.not_false, if_true]
          rw [if_neg hconf]
        rw [hstep, ih acc]
    · rw [if_neg (by tauto)]
      have hany : (c.issues.any fun issue => (acc.flatMap (·.issues)).contains issue) = true := by
        rcases Bool.eq_false_or_eq_true (c.issues.any fun issue => (acc.flatMap (·.issues)).contains issue) with h | h
        · exact h
        · exact absurd (hanyiff.mp h) hov
      have hstep : acceptStep (acc, acc.flatMap (·.issues)) c = (acc, acc.flatMap (·.issues)) := by
        rw [acceptStep]
        simp only [hany, Bool.not_true, Bool.false_eq_true, if_false]
      rw [hstep, ih acc]

lemma dedupFirst_nodup : ∀ (l seen : List String), (dedupFirst seen l).Nodup := by
  intro l
  induction l with
  | nil => intro seen; simp [dedupFirst]
  | cons v vs ih =>
    intro seen
    by_cases hv : seen.contains v
    · rw [dedupFirst, if_pos hv]
      exact ih seen
    · rw [dedupFirst, if_neg hv]
      rw [List.nodup_cons]
      refine ⟨fun hmem => ?_, ih (seen ++ [v])⟩
      have := (mem_dedupFirst.mp hmem).2
      simp at this

lemma dedupFirst_eq_self : ∀ (l seen : List String), l.Nodup →
    (∀ a ∈ l, a ∉ seen) → dedupFirst seen l = l := by
  intro l
  induction l with
  | nil => intro seen _ _; rfl
  | cons v vs ih =>
    intro seen hnd hdisj
    rw [dedupFirst, if_neg (by simpa using hdisj v (List.mem_cons_self _ _))]
    rw [List.nodup_cons] at hnd
    congr 1
    refine ih (seen ++ [v]) hnd.2 fun a ha => ?_
    simp only [List.mem_append, List.mem_singleton]
    rintro (h | rfl)
    · exact hdisj a (List.mem_cons_of_mem _ ha) h
    · exact hnd.1 ha

/-! ### Claim theorems -/

/-- Claim C5: validate_merge_group applies its four checks in source order
with short-circuit on the first failure (size, existence, merged status,
shared standard — each concrete case below fails two checks and reports the
earlier one), a group is accepted exactly when all four checks hold, and a
two-issue group whose members carry distinct standards A and B in table
order is rejected with the exact message naming both. -/
theorem c5_validator_order :
    (validate_merge_group
        [⟨"I1", "A", none, none, none, none, none, none⟩,
         ⟨"I2", "B", none, none, none, none, none, none⟩] ["I1", "I2"]
      = (false, "Issues have different standards: A, B"))
    ∧ (validate_merge_group
        [⟨"I1", "A", none, none, none, none, none, none⟩] ["IX"]
      = (false, "Need at least 2 issues to merge"))
    ∧ (validate_merge_group
        [⟨"M1", "A", none, none, none, some "Merged", some "P", none⟩] ["M1", "IX"]
      = (false, "Issues not found: IX"))
    ∧ (validate_merge_group
        [⟨"M1", "A", none, none, none, some "Merged", some "P", none⟩,
         ⟨"I2", "B", none, none, none, none, none, none⟩] ["M1", "I2"]
      = (false, "Issues already merged: M1"))
    ∧ (∀ df issues, (validate_merge_group df issues).1 = true ↔
        (2 ≤ issues.length
          ∧ (∀ i ∈ issues, ∃ r ∈ df, r.issueId = i)
          ∧ (∀ r ∈ df, r.issueId ∈ issues → r.status ≠ some "Merged")
          ∧ (∀ r1 ∈ df, ∀ r2 ∈ df, r1.issueId ∈ issues → r2.issueId ∈ issues →
              r1.linkedStandard = r2.linkedStandard))) :=
  ⟨by decide, by decide, by decide, by decide, validate_true_iff⟩

/-- Witness for C5: the acceptance characterization applied to a concrete
two-issue group sharing one standard. -/
theorem c5_validator_order_witness :
    (validate_merge_group
      [⟨"I1", "S", none, none, none, none, none, none⟩,
       ⟨"I2", "S", none, none, none, none, none, none⟩] ["I1", "I2"]).1 = true :=
  (c5_validator_order.2.2.2.2 _ ["I1", "I2"]).mpr (by decide)

/-- Claim C2 counterexample: in the spec's end-to-end scenario the
primary's score cell is not replaced by the maximum 3 of the members'
scores; execute_merge leaves it at the primary's own value 2, because the
combined-field set in the source contains only "Input Prompt" and
"Failure Rationale". -/
theorem c2_scenario_counterexample :
    (((execute_merge
        [⟨"I1", "S", some "p1", some "ra", some "2", none, none, none⟩,
         ⟨"I2", "S", some "p2", some "rb", some "3", none, none, none⟩]
        ⟨["I1", "I2"], "dup", 0.9, none⟩ none "T0").1.1.headD defaultRow).finalScore
      = some "2")
    ∧ (((execute_merge
        [⟨"I1", "S", some "p1", some "ra", some "2", none, none, none⟩,
         ⟨"I2", "S", some "p2", some "rb", some "3", none, none, none⟩]
        ⟨["I1", "I2"], "dup", 0.9, none⟩ none "T0").1.1.headD defaultRow).finalScore
      ≠ some "3") := by
  decide

/-- Claim C2 amended: the end-to-end scenario as the code implements it —
prompt and rationale are combined onto I1, I1 becomes Primary with merged
ids [I2] while its score cell keeps I1's own value 2 (the score field is
not in the combined-field set), I2 becomes Merged with back-link I1, and
exactly one audit entry with primary I1 and secondaries [I2] is appended. -/
theorem c2_scenario_amended :
    ((execute_merge
        [⟨"I1", "S", some "p1", some "ra", some "2", none, none, none⟩,
         ⟨"I2", "S", some "p2", some "rb", some "3", none, none, none⟩]
        ⟨["I1", "I2"], "dup", 0.9, none⟩ none "T0").1.1
      = [⟨"I1", "S", some "p1", some "â€¢ ra\nâ€¢ rb", some "2",
          some "Primary", none, some ["I2"]⟩,
         ⟨"I2", "S", some "p2", some "rb", some "3",
          some "Merged", some "I1", none⟩])
    ∧ ((execute_merge
        [⟨"I1", "S", some "p1", some "ra", some "2", none, none, none⟩,
         ⟨"I2", "S", some "p2", some "rb", some "3", none, none, none⟩]
        ⟨["I1", "I2"], "dup", 0.9, none⟩ none "T0").1.2
      = some ⟨"I1", ["I2"], 0.9, "dup"⟩)
    ∧ ((execute_merge
        [⟨"I1", "S", some "p1", some "ra", some "2", none, none, none⟩,
         ⟨"I2", "S", some "p2", some "rb", some "3", none, none, none⟩]
        ⟨["I1", "I2"], "dup", 0.9, none⟩ none "T0").2
      = some [⟨"T0", "merge", "I1", ["I2"], 0.9, "dup"⟩]) :=
  ⟨by decide, rfl, rfl⟩

/-- Claim C4: when validation fails, execute_merge returns the store
unchanged paired with no action and leaves the audit file untouched; and
the call returns no action exactly when validation failed, so validation
failure is the sole rejection path. -/
theorem c4_atomic_rejection (df : List Row) (ms : MergeSuggestion)
    (file : Option (List AuditEntry)) (now : String) :
    ((validate_merge_group df (ms.selected_issues.getD ms.issues)).1 = false →
      execute_merge df ms file now = ((df, none), file))
    ∧ ((execute_merge df ms file now).1.2 = none ↔
        (validate_merge_group df (ms.selected_issues.getD ms.issues)).1 = false) := by
  constructor
  · intro h
    simp [execute_merge, h]
  · cases h : (validate_merge_group df (ms.selected_issues.getD ms.issues)).1
    · simp [execute_merge, h]
    · simp [execute_merge, h]

/-- Witness for C4: a one-element group is rejected and the call leaves
store and audit file untouched. -/
theorem c4_atomic_rejection_witness :
    execute_merge [⟨"I1", "S", none, none, none, none, none, none⟩]
        ⟨["I1"], "r", 0.9, none⟩ none "T0"
      = (([⟨"I1", "S", none, none, none, none, none, none⟩], none), none) :=
  (c4_atomic_rejection _ _ _ _).1 (by decide)

/-- Claim C8: the audit history grows by exactly the one new entry (in
append order) on a successful execute_merge, is untouched on a rejected
one, and clearing the file leaves an empty history. -/
theorem c8_audit_monotonic (df : List Row) (ms : MergeSuggestion)
    (file : Option (List AuditEntry)) (now : String) :
    (∀ a, (execute_merge df ms file now).1.2 = some a →
      get_merge_history (execute_merge df ms file now).2 true =
        get_merge_history file true ++
          [⟨now, "merge", a.primary_issue, a.secondary_issues,
            a.confidence, a.rationale⟩])
    ∧ ((execute_merge df ms file now).1.2 = none →
        (execute_merge df ms file now).2 = file)
    ∧ (∀ f : Option (List AuditEntry),
        (get_merge_history (clear_cache f).1 true).length = 0) := by
  refine ⟨?_, ?_, ?_⟩
  · intro a ha
    cases hv : (validate_merge_group df (ms.selected_issues.getD ms.issues)).1
    · rw [execute_merge, hv] at ha
      simp at ha
    · rw [execute_merge_success df ms file now hv] at ha ⊢
      simp only [Option.some.injEq] at ha
      subst ha
      cases file <;> simp [get_merge_history, log_merge]
  · intro h
    cases hv : (validate_merge_group df (ms.selected_issues.getD ms.issues)).1
    · rw [execute_merge, hv]
      simp
    · rw [execute_merge_success df ms file now hv] at h
      simp at h
  · intro f
    cases f <;> rfl

/-- Witness for C8: the end-to-end scenario appends exactly one entry to
an initially missing audit file. -/
theorem c8_audit_monotonic_witness :
    get_merge_history (execute_merge
        [⟨"I1", "S", some "p1", some "ra", some "2", none, none, none⟩,
         ⟨"I2", "S", some "p2", some "rb", some "3", none, none, none⟩]
        ⟨["I1", "I2"], "dup", 0.9, none⟩ none "T0").2 true =
      get_merge_history (none : Option (List AuditEntry)) true ++
        [⟨"T0", "merge", "I1", ["I2"], 0.9, "dup"⟩] :=
  (c8_audit_monotonic _ _ _ _).1 ⟨"I1", ["I2"], 0.9, "dup"⟩ rfl

/-- Claim C3 counterexample: two merges identical except for a secondary's
rationale text produce different combined rationales on the primary, yet
byte-identical audit logs — so the audit entry does not carry the
post-merge combined field values. -/
theorem c3_audit_counterexample :
    (((execute_merge
        [⟨"I1", "S", some "p1", some "ra", some "2", none, none, none⟩,
         ⟨"I2", "S", some "p2", some "rb", some "3", none, none, none⟩]
        ⟨["I1", "I2"], "dup", 0.9, none⟩ none "T0").1.1.headD defaultRow).failureRationale
      ≠ ((execute_merge
        [⟨"I1", "S", some "p1", some "ra", some "2", none, none, none⟩,
         ⟨"I2", "S", some "p2", some "rc", some "3", none, none, none⟩]
        ⟨["I1", "I2"], "dup", 0.9, none⟩ none "T0").1.1.headD defaultRow).failureRationale)
    ∧ ((execute_merge
        [⟨"I1", "S", some "p1", some "ra", some "2", none, none, none⟩,
         ⟨"I2", "S", some "p2", some "rb", some "3", none, none, none⟩]
        ⟨["I1", "I2"], "dup", 0.9, none⟩ none "T0").2
      = (execute_merge
        [⟨"I1", "S", some "p1", some "ra", some "2", none, none, none⟩,
         ⟨"I2", "S", some "p2", some "rc", some "3", none, none, none⟩]
        ⟨["I1", "I2"], "dup", 0.9, none⟩ none "T0").2) :=
  ⟨by decide, rfl⟩

/-- Claim C3 amended: every successful execute_merge appends exactly one
entry holding the timestamp, the constant action tag "merge", the primary,
the ordered secondaries, the confidence and the rationale; the post-merge
combined field values are not part of the entry (see the counterexample). -/
theorem c3_audit_amended (df : List Row) (ms : MergeSuggestion)
    (file : Option (List AuditEntry)) (now : String)
    (h : (execute_merge df ms file now).1.2 ≠ none) :
    (execute_merge df ms file now).2 =
      some ((file.getD []) ++
        [⟨now, "merge", (ms.selected_issues.getD ms.issues).headD "",
          (ms.selected_issues.getD ms.issues).tail, ms.confidence, ms.rationale⟩]) := by
  cases hv : (validate_merge_group df (ms.selected_issues.getD ms.issues)).1
  · exfalso
    apply h
    rw [execute_merge, hv]
    simp
  · rw [execute_merge_success df ms file now hv]
    rfl

/-- Witness for C3: the concrete two-issue merge appends exactly the
expected entry. -/
theorem c3_audit_witness :
    (execute_merge
        [⟨"I1", "S", some "p1", some "ra", some "2", none, none, none⟩,
         ⟨"I2", "S", some "p2", some "rb", some "3", none, none, none⟩]
        ⟨["I1", "I2"], "dup", 0.9, none⟩ none "T0").2
      = some [⟨"T0", "merge", "I1", ["I2"], 0.9, "dup"⟩] :=
  c3_audit_amended _ _ _ _ (by decide)

/-- Claim C6: the acceptance loop accepts a candidate exactly when its
confidence is at least 0.8 and none of its member ids appears in an
earlier accepted candidate of the same call (first-claim-wins), and of the
two overlapping example groups only the first is accepted; the second is
dropped despite its higher confidence. -/
theorem c6_first_claim_wins :
    (∀ suggestions : List Candidate,
      filterValidSuggestions suggestions = specAccept [] suggestions)
    ∧ filterValidSuggestions
        [⟨["I1", "I2"], "overlap a", 0.85⟩, ⟨["I2", "I3"], "overlap b", 0.95⟩]
      = [⟨["I1", "I2"], "overlap a", 0.85⟩] := by
  constructor
  · intro suggestions
    have h := foldl_acceptStep suggestions []
    simpa [filterValidSuggestions] using h
  · have hc : (0.85 : Rat) ≥ 0.8 := by norm_num
    simp [filterValidSuggestions, acceptStep, hc]

/-- Claim C7: combine_field_values is deterministic (equal inputs give
equal outputs), is invariant under first dropping empty/null entries and
then deduplicating to first occurrences, returns the empty string when no
values remain after the cleaning, and the rationale-field example yields
the fixed two-item bulleted result with "a" before "b". -/
theorem c7_combine_deterministic :
    (∀ (v1 v2 : List (Option String)) (f1 f2 : String), v1 = v2 → f1 = f2 →
      combine_field_values v1 f1 = combine_field_values v2 f2)
    ∧ (∀ values field, combine_field_values values field =
        combine_field_values
          ((dedupFirst [] ((values.filterMap id).filter
            (fun v => pyStrip v ≠ ""))).map some) field)
    ∧ (∀ values field,
        (values.filterMap id).filter (fun v => pyStrip v ≠ "") = [] →
        combine_field_values values field = .s "")
    ∧ (combine_field_values [some "a", some "b", some "a"] "Failure Rationale"
        = .s "â€¢ a\nâ€¢ b") := by
  refine ⟨?_, ?_, ?_, by decide⟩
  · rintro v1 v2 f1 f2 rfl rfl
    rfl
  · intro values field
    have h1 : ((dedupFirst [] ((values.filterMap id).filter
          (fun v => pyStrip v ≠ ""))).map some).filterMap id
        = dedupFirst [] ((values.filterMap id).filter (fun v => pyStrip v ≠ "")) := by
      simp
    have hmem : ∀ a ∈ dedupFirst [] ((values.filterMap id).filter
        (fun v => pyStrip v ≠ "")), pyStrip a ≠ "" := by
      intro a ha
      have hf := (mem_dedupFirst.mp ha).1
      simpa using (List.mem_filter.mp hf).2
    have h2 : (dedupFirst [] ((values.filterMap id).filter
          (fun v => pyStrip v ≠ ""))).filter (fun v => pyStrip v ≠ "")
        = dedupFirst [] ((values.filterMap id).filter (fun v => pyStrip v ≠ "")) := by
      rw [List.filter_eq_self]
      intro a ha
      simpa using hmem a ha
    have h3 : dedupFirst [] (dedupFirst [] ((values.filterMap id).filter
          (fun v => pyStrip v ≠ "")))
        = dedupFirst [] ((values.filterMap id).filter (fun v => pyStrip v ≠ "")) :=
      dedupFirst_eq_self _ _ (dedupFirst_nodup _ _) (by simp)
    simp only [combine_field_values]
    rw [h1, h2, h3]
  · intro values field h
    simp only [combine_field_values]
    rw [h]
    rfl

/-- Witness for C7: cleaning [null, empty, whitespace-only] leaves nothing
and the combiner returns the empty string. -/
theorem c7_combine_witness :
    combine_field_values [none, some "", some " "] "Failure Rationale" = .s "" :=
  c7_combine_deterministic.2.2.1 [none, some "", some " "] "Failure Rationale" (by decide)

lemma headD_mem {l : List String} (h : l ≠ []) : l.headD "" ∈ l := by
  cases l with
  | nil => exact absurd rfl h
  | cons a as => simp

/-- Claim C1 counterexample: a store satisfying the three-state invariant
in which P is already Primary (it absorbed X earlier) — the group [Q, P]
passes validation, and after execute_merge P is Merged while its Merged
IDs cell still names X, so "Primary ⇔ merged_ids non-empty" fails in the
returned store. -/
theorem c1_invariant_counterexample :
    storeInv
        [⟨"P", "S", none, none, none, some "Primary", none, some ["X"]⟩,
         ⟨"X", "S", none, none, none, some "Merged", some "P", none⟩,
         ⟨"Q", "S", none, none, none, none, none, none⟩]
    ∧ (validate_merge_group
        [⟨"P", "S", none, none, none, some "Primary", none, some ["X"]⟩,
         ⟨"X", "S", none, none, none, some "Merged", some "P", none⟩,
         ⟨"Q", "S", none, none, none, none, none, none⟩] ["Q", "P"]).1 = true
    ∧ ¬ storeInv
        (execute_merge
          [⟨"P", "S", none, none, none, some "Primary", none, some ["X"]⟩,
           ⟨"X", "S", none, none, none, some "Merged", some "P", none⟩,
           ⟨"Q", "S", none, none, none, none, none, none⟩]
          ⟨["Q", "P"], "merge back", 0.9, none⟩ none "T0").1.1 := by
  refine ⟨by decide, by decide, by decide⟩

/-- Claim C1 amended: the three-state invariant is preserved by
execute_merge provided it held beforehand, the resolved group's primary id
is non-empty and does not recur among the secondaries, and every row named
as a secondary is currently Open (blank status).  Without the Open
condition a formerly-Primary secondary keeps its stale Merged IDs value,
and without distinctness the primary itself is re-marked Merged; see the
counterexample. -/
theorem c1_invariant_amended (df : List Row) (ms : MergeSuggestion)
    (file : Option (List AuditEntry)) (now : String)
    (hinv : storeInv df)
    (hpe : (ms.selected_issues.getD ms.issues).headD "" ≠ "")
    (hnd : (ms.selected_issues.getD ms.issues).headD "" ∉
      (ms.selected_issues.getD ms.issues).tail)
    (hopen : ∀ r ∈ df, r.issueId ∈ (ms.selected_issues.getD ms.issues).tail →
      cellBlank r.status = true) :
    storeInv (execute_merge df ms file now).1.1 := by
  cases hv : (validate_merge_group df (ms.selected_issues.getD ms.issues)).1
  · rw [execute_merge, hv]
    simpa using hinv
  · rw [execute_merge_success df ms file now hv]
    obtain ⟨hlen, -, hnm, -⟩ :=
      (validate_true_iff df (ms.selected_issues.getD ms.issues)).mp hv
    intro r' hr'
    obtain ⟨r, hr, rfl⟩ := List.mem_map.mp hr'
    have hri := hinv r hr
    set issues := ms.selected_issues.getD ms.issues with hiss
    have hne : issues ≠ [] := by
      intro hcon
      rw [hcon] at hlen
      simp at hlen
    have htailne : issues.tail ≠ [] := by
      intro hcon
      have h1 := List.length_tail issues
      rw [hcon] at h1
      simp at h1
      omega
    by_cases hsec : issues.tail.contains r.issueId = true
    · have hsecm : r.issueId ∈ issues.tail := by simpa [List.elem_iff] using hsec
      have hidne : ¬ (r.issueId = issues.headD "") := fun hcon => hnd (hcon ▸ hsecm)
      obtain ⟨hi1, hi2, hi3⟩ := hri
      have hob := hopen r hr hsecm
      have hmw : cellBlank r.mergedWithIssueId = true := (hi3.mp hob).1
      have hmi : idsNonempty r.mergedIds = false := (hi3.mp hob).2
      have hrow : mergeRowTransform issues
          (combinedPromptOf df issues) (combinedRationaleOf df issues) r =
          { r with
              status := some "Merged"
              mergedWithIssueId := some (issues.headD "") } := by
        simp only [mergeRowTransform]
        rw [if_neg hidne, if_neg hidne, if_neg hidne, if_neg hidne, if_pos hsec]
      rw [hrow]
      refine ⟨?_, ?_, ?_⟩
      · simp [cellBlank]
        simpa using hpe
      · simp [hmi]
      · simp [cellBlank, hmi]
        simpa using hpe
    · by_cases hidp : r.issueId = issues.headD ""
      · have hmem : r.issueId ∈ issues := hidp ▸ headD_mem hne
        have hnotm : r.status ≠ some "Merged" := hnm r hr hmem
        have hmw : cellBlank r.mergedWithIssueId = true := by
          rcases Bool.eq_false_or_eq_true (cellBlank r.mergedWithIssueId) with h | h
          · exact h
          · exact absurd (hri.1.mpr h) hnotm
        have hids : idsNonempty (some issues.tail) = true := by
          cases htl : issues.tail with
          | nil => exact absurd htl htailne
          | cons a as => simp [idsNonempty]
        have hrow : mergeRowTransform issues
            (combinedPromptOf df issues) (combinedRationaleOf df issues) r =
            { r with
                status := some "Primary"
                inputPrompt := combinedPromptOf df issues
                failureRationale := combinedRationaleOf df issues
                mergedIds := some issues.tail } := by
          simp only [mergeRowTransform]
          rw [if_pos hidp]
          dsimp only
          rw [if_pos hidp]
          dsimp only
          rw [if_pos hidp]
          dsimp only
          rw [if_pos hidp]
          dsimp only
          rw [if_neg hsec]
        rw [hrow]
        refine ⟨?_, ?_, ?_⟩
        · simp [hmw]
        · simp [hids]
        · simp [cellBlank, hids]
      · have hrow : mergeRowTransform issues
            (combinedPromptOf df issues) (combinedRationaleOf df issues) r = r := by
          simp only [mergeRowTransform]
          rw [if_neg hidp, if_neg hidp, if_neg hidp, if_neg hidp, if_neg hsec]
        rw [hrow]
        exact hri

/-- Witness for C1: the invariant holds after the concrete two-open-issue
merge. -/
theorem c1_invariant_witness :
    storeInv (execute_merge
        [⟨"I1", "S", some "p1", some "ra", some "2", none, none, none⟩,
         ⟨"I2", "S", some "p2", some "rb", some "3", none, none, none⟩]
        ⟨["I1", "I2"], "dup", 0.9, none⟩ none "T0").1.1 :=
  c1_invariant_amended _ _ _ _ (by decide) (by decide) (by decide) (by decide)

lemma mergeRowTransform_issueId (issues : List String) (cp cr : Option String)
    (r : Row) : (mergeRowTransform issues cp cr r).issueId = r.issueId := by
  simp only [mergeRowTransform]
  by_cases h : r.issueId = issues.headD ""
  · rw [if_pos h]
    dsimp only
    rw [if_pos h]
    dsimp only
    rw [if_pos h]
    dsimp only
    rw [if_pos h]
    dsimp only
    by_cases hs : issues.tail.contains r.issueId = true
    · rw [if_pos hs]
    · rw [if_neg hs]
  · rw [if_neg h, if_neg h, if_neg h, if_neg h]
    by_cases hs : issues.tail.contains r.issueId = true
    · rw [if_pos hs]
    · rw [if_neg hs]

/-- Claim C9 counterexample: with the degenerate group [I1, I1] the merge
succeeds with I1 as its own secondary, and that secondary record's Merged
IDs cell changes from unset to ["I1"] — more than status and back-link. -/
theorem c9_frame_counterexample :
    ((execute_merge
        [⟨"I1", "S", some "p1", some "ra", some "2", none, none, none⟩,
         ⟨"I2", "S", some "p2", some "rb", some "3", none, none, none⟩]
        ⟨["I1", "I1"], "dup", 0.9, none⟩ none "T0").1.2
      = some ⟨"I1", ["I1"], 0.9, "dup"⟩)
    ∧ (((execute_merge
        [⟨"I1", "S", some "p1", some "ra", some "2", none, none, none⟩,
         ⟨"I2", "S", some "p2", some "rb", some "3", none, none, none⟩]
        ⟨["I1", "I1"], "dup", 0.9, none⟩ none "T0").1.1.headD defaultRow).mergedIds
      ≠ none) :=
  ⟨rfl, by decide⟩

/-- Claim C9 amended: for a successful execute_merge whose primary id does
not recur among the secondaries, every row named as a secondary changes
only its status (to Merged) and its back-link (to the primary's id), and
every row that is neither the primary nor a secondary keeps every field.
(With a duplicated group the primary is its own secondary and other cells
change too; see the counterexample.) -/
theorem c9_frame_amended (df : List Row) (ms : MergeSuggestion)
    (file : Option (List AuditEntry)) (now : String)
    (hv : (validate_merge_group df (ms.selected_issues.getD ms.issues)).1 = true)
    (hnd : (ms.selected_issues.getD ms.issues).headD "" ∉
      (ms.selected_issues.getD ms.issues).tail) :
    ((execute_merge df ms file now).1.1.length = df.length)
    ∧ ∀ i, i < df.length →
        ((df.getD i defaultRow).issueId ∈ (ms.selected_issues.getD ms.issues).tail →
          (execute_merge df ms file now).1.1.getD i defaultRow =
            { df.getD i defaultRow with
                status := some "Merged"
                mergedWithIssueId := some ((ms.selected_issues.getD ms.issues).headD "") })
        ∧ ((df.getD i defaultRow).issueId ≠ (ms.selected_issues.getD ms.issues).headD "" →
          (df.getD i defaultRow).issueId ∉ (ms.selected_issues.getD ms.issues).tail →
          (execute_merge df ms file now).1.1.getD i defaultRow = df.getD i defaultRow) := by
  rw [execute_merge_success df ms file now hv]
  dsimp only
  constructor
  · simp
  · intro i hi
    have hg := getD_map_lt (mergeRowTransform (ms.selected_issues.getD ms.issues)
        (combinedPromptOf df (ms.selected_issues.getD ms.issues))
        (combinedRationaleOf df (ms.selected_issues.getD ms.issues))) df i hi
    constructor
    · intro hsecm
      have hsec : (ms.selected_issues.getD ms.issues).tail.contains
          (df.getD i defaultRow).issueId = true := by
        simpa [List.elem_iff] using hsecm
      have hidne : ¬ ((df.getD i defaultRow).issueId =
          (ms.selected_issues.getD ms.issues).headD "") :=
        fun hcon => hnd (hcon ▸ hsecm)
      rw [hg]
      simp only [mergeRowTransform]
      rw [if_neg hidne, if_neg hidne, if_neg hidne, if_neg hidne, if_pos hsec]
    · intro h1 h2
      have hsec : ¬ ((ms.selected_issues.getD ms.issues).tail.contains
          (df.getD i defaultRow).issueId = true) := by
        intro hcon
        exact h2 (by simpa [List.elem_iff] using hcon)
      rw [hg]
      simp only [mergeRowTransform]
      rw [if_neg h1, if_neg h1, if_neg h1, if_neg h1, if_neg hsec]

/-- Witness for C9: in the concrete two-issue merge the secondary row I2
changes exactly its status and back-link. -/
theorem c9_frame_witness :
    (execute_merge
        [⟨"I1", "S", some "p1", some "ra", some "2", none, none, none⟩,
         ⟨"I2", "S", some "p2", some "rb", some "3", none, none, none⟩]
        ⟨["I1", "I2"], "dup", 0.9, none⟩ none "T0").1.1.getD 1 defaultRow
      = ⟨"I2", "S", some "p2", some "rb", some "3", some "Merged", some "I1", none⟩ :=
  ((c9_frame_amended _ _ _ _ (by decide) (by decide)).2 1 (by decide)).1 (by decide)

/-- Claim C10: the validator accepts a group containing an already-Primary
record, and when that record leads the group execute_merge overwrites its
Merged IDs cell with exactly the new secondary list — concretely, P's
earlier absorbed [X] is discarded in favour of [Q]; in general the primary
row of any successful merge ends with merged ids equal to the group's
tail, whatever it held before. -/
theorem c10_remerge_overwrites :
    ((validate_merge_group
        [⟨"P", "S", none, none, none, some "Primary", none, some ["X"]⟩,
         ⟨"X", "S", none, none, none, some "Merged", some "P", none⟩,
         ⟨"Q", "S", none, none, none, none, none, none⟩] ["P", "Q"])
      = (true, ""))
    ∧ (((execute_merge
        [⟨"P", "S", none, none, none, some "Primary", none, some ["X"]⟩,
         ⟨"X", "S", none, none, none, some "Merged", some "P", none⟩,
         ⟨"Q", "S", none, none, none, none, none, none⟩]
        ⟨["P", "Q"], "again", 0.9, none⟩ none "T0").1.1.headD defaultRow).mergedIds
      = some ["Q"])
    ∧ (∀ (df : List Row) (ms : MergeSuggestion)
        (file : Option (List AuditEntry)) (now : String),
        (validate_merge_group df (ms.selected_issues.getD ms.issues)).1 = true →
        ∀ r ∈ (execute_merge df ms file now).1.1,
          r.issueId = (ms.selected_issues.getD ms.issues).headD "" →
          r.mergedIds = some (ms.selected_issues.getD ms.issues).tail) := by
  refine ⟨by decide, by decide, ?_⟩
  intro df ms file now hv r hrm hid
  rw [execute_merge_success df ms file now hv] at hrm
  dsimp only at hrm
  obtain ⟨r0, hr0, rfl⟩ := List.mem_map.mp hrm
  rw [mergeRowTransform_issueId] at hid
  simp only [mergeRowTransform]
  rw [if_pos hid]
  dsimp only
  rw [if_pos hid]
  dsimp only
  rw [if_pos hid]
  dsimp only
  rw [if_pos hid]
  dsimp only
  by_cases hs : (ms.selected_issues.getD ms.issues).tail.contains r0.issueId = true
  · rw [if_pos hs]
  · rw [if_neg hs]

/-- Witness for C10: the primary of the concrete two-issue merge ends with
merged ids exactly the group's tail. -/
theorem c10_remerge_witness :
    ((execute_merge
        [⟨"I1", "S", some "p1", some "ra", some "2", none, none, none⟩,
         ⟨"I2", "S", some "p2", some "rb", some "3", none, none, none⟩]
        ⟨["I1", "I2"], "dup", 0.9, none⟩ none "T0").1.1.headD defaultRow).mergedIds
      = some ["I2"] :=
  c10_remerge_overwrites.2.2
    [⟨"I1", "S", some "p1", some "ra", some "2", none, none, none⟩,
     ⟨"I2", "S", some "p2", some "rb", some "3", none, none, none⟩]
    ⟨["I1", "I2"], "dup", 0.9, none⟩ none "T0" (by decide) _ (by decide) (by decide)

end RadQA
